import Mathlib

/-!
Shallow embedding of the ferrux_viewport rasterization core.

The crate draws depth-tested points, lines and triangles into a flat
row-major pixel buffer.  Positions are normalized f32 triples; here f32
arithmetic is modelled by exact rational arithmetic.  The concrete inputs
used below are dyadic (exactly representable in f32, with every concrete
computation exact in f32) except the spec's example (-0.25, 0.2, 0.6),
where the f32 rounding of 0.2 and 0.6 does not change the truncated voxel:
the repo's own to_pixel unit test pins the same (240, 288, 80) that the
exact-rational model yields.  The Rust numeric casts are modelled
explicitly:
  - f32 as usize truncates toward zero and saturates at both ends of the
    usize range: at 0 for negative values and at usize::MAX above it;
  - f32 as isize truncates toward zero and saturates at isize::MIN/MAX;
  - isize as usize reinterprets two's complement, i.e. reduces mod 2^64.
-/

/-- A color is the 4-byte RGBA value handed to every drawing call. -/
abbrev Color := ℕ × ℕ × ℕ × ℕ

/-- One cell of the pixel buffer (src/pixel.rs): the currently winning color
and its depth. -/
structure Pixel where
  color : Color
  depth : ℕ
  deriving DecidableEq, Repr

/-- src/pixel.rs, impl Default: color (0,0,0,0), depth usize::MIN = 0. -/
def Pixel.default : Pixel := { color := (0, 0, 0, 0), depth := 0 }

/-- Normalized position supplied by callers (f32 triple, modelled over ℚ). -/
abbrev Position := ℚ × ℚ × ℚ

/-- Voxel of unsigned pixel-space coordinates (col, row, layer). -/
abbrev VoxelN := ℕ × ℕ × ℕ

/-- Voxel of signed pixel-space coordinates, used during line math. -/
abbrev VoxelZ := ℤ × ℤ × ℤ

/-- Rust cast of an f32 value to usize: truncation toward zero, saturating
at 0 for negative values and at usize::MAX = 2^64 - 1 above it; on
nonnegative values below usize::MAX this is the floor. -/
def usizeOfRat (q : ℚ) : ℕ := min ((⌊q⌋).toNat) (2 ^ 64 - 1)

/-- Rust cast of an f32 value to isize: truncation toward zero, saturating
at isize::MIN = -2^63 and isize::MAX = 2^63 - 1. -/
def isizeOfRat (q : ℚ) : ℤ :=
  max (-(2 ^ 63)) (min (if 0 ≤ q then ⌊q⌋ else -⌊-q⌋) (2 ^ 63 - 1))

/-- Rust cast of an isize to usize: two's-complement reinterpretation,
i.e. reduction mod 2^64. -/
def usizeOfIsize (z : ℤ) : ℕ := (z % (2 ^ 64)).toNat

/-- src/util.rs to_pixel: converts the normalized position into the pixel
equivalent in the given screen. -/
def to_pixel (p : Position) (s : VoxelN) : VoxelN :=
  (usizeOfRat ((p.1 + 1) * (1/2) * (s.1 : ℚ)),
   usizeOfRat ((p.2.1 + 1) * (1/2) * (s.2.1 : ℚ)),
   usizeOfRat ((p.2.2 + 1) * (1/2) * (s.2.2 : ℚ)))

/-- src/util.rs as_signed: usize voxel to isize voxel (lossless widening). -/
def as_signed (v : VoxelN) : VoxelZ := ((v.1 : ℤ), (v.2.1 : ℤ), (v.2.2 : ℤ))

/-- src/util.rs buffer_index: relative pixel in the screen for coordinates. -/
def buffer_index (w h width : ℕ) : ℕ := h * width + w

/-- src/util.rs calculate_intersection: the point over the line connecting
top and bot having the same height as mid (f32 arithmetic over ℚ, with the
final f32-to-isize truncating casts). -/
def calculate_intersection (top mid bot : VoxelZ) : VoxelZ :=
  let diff_y_mid : ℚ := (mid.2.1 : ℚ) - (top.2.1 : ℚ)
  let diff_y_bot : ℚ := (bot.2.1 : ℚ) - (top.2.1 : ℚ)
  let diff_x : ℚ := (bot.1 : ℚ) - (top.1 : ℚ)
  let diff_z : ℚ := (bot.2.2 : ℚ) - (top.2.2 : ℚ)
  let x : ℚ := (top.1 : ℚ) + (diff_y_mid / diff_y_bot) * diff_x
  let z : ℚ := (top.2.2 : ℚ) + (diff_y_mid / diff_y_bot) * diff_z
  (isizeOfRat x, mid.2.1, isizeOfRat z)

/-- src/util.rs sort_vectors: the three points sorted by Y value with Rust's
stable sort (ascending), returned as (largest, middle, smallest). -/
def sort_vectors (p1 p2 p3 : VoxelZ) : VoxelZ × VoxelZ × VoxelZ :=
  let s := if p2.2.1 ≤ p3.2.1 then (p2, p3) else (p3, p2)
  let t := if p1.2.1 ≤ s.1.2.1 then (p1, s.1, s.2)
    else if p1.2.1 ≤ s.2.2.1 then (s.1, p1, s.2)
    else (s.1, s.2, p1)
  (t.2.2, t.2.1, t.1)

/-- Modelled from the spec: one dominant-axis run of the external
line_drawing::Bresenham3d iterator (a 3D Bresenham digital line, spec 4.4).
The triple is (dominant, minor1, minor2); each step advances the dominant
coordinate by its sign and the minor coordinates by their error terms. -/
def bresRun (sgn dbl : ℤ × ℤ × ℤ) : ℕ → (ℤ × ℤ × ℤ) → ℤ → ℤ → List (ℤ × ℤ × ℤ)
  | 0, p, _, _ => [p]
  | n + 1, p, e1, e2 =>
    let q1 := if 0 < e1 then p.2.1 + sgn.2.1 else p.2.1
    let f1 := if 0 < e1 then e1 - dbl.1 else e1
    let q2 := if 0 < e2 then p.2.2 + sgn.2.2 else p.2.2
    let f2 := if 0 < e2 then e2 - dbl.1 else e2
    p :: bresRun sgn dbl n (p.1 + sgn.1, q1, q2) (f1 + dbl.2.1) (f2 + dbl.2.2)

/-- Modelled from the spec: the external line_drawing::Bresenham3d digital
line from a to b (spec 4.4: includes both endpoints, one visit per unit of
the dominant axis, no gaps).  No settled theorem below depends on the
per-pixel choices of this model. -/
def bresenham3d (a b : VoxelZ) : List VoxelZ :=
  let dx : ℤ := (b.1 - a.1).natAbs
  let dy : ℤ := (b.2.1 - a.2.1).natAbs
  let dz : ℤ := (b.2.2 - a.2.2).natAbs
  let sx : ℤ := if a.1 < b.1 then 1 else -1
  let sy : ℤ := if a.2.1 < b.2.1 then 1 else -1
  let sz : ℤ := if a.2.2 < b.2.2 then 1 else -1
  if dy ≤ dx ∧ dz ≤ dx then
    (bresRun (sx, sy, sz) (2 * dx, 2 * dy, 2 * dz) dx.toNat
      (a.1, a.2.1, a.2.2) (2 * dy - dx) (2 * dz - dx)).map
      (fun t => (t.1, t.2.1, t.2.2))
  else if dx ≤ dy ∧ dz ≤ dy then
    (bresRun (sy, sx, sz) (2 * dy, 2 * dx, 2 * dz) dy.toNat
      (a.2.1, a.1, a.2.2) (2 * dx - dy) (2 * dz - dy)).map
      (fun t => (t.2.1, t.1, t.2.2))
  else
    (bresRun (sz, sx, sy) (2 * dz, 2 * dx, 2 * dy) dz.toNat
      (a.2.2, a.1, a.2.1) (2 * dx - dz) (2 * dy - dz)).map
      (fun t => (t.2.1, t.2.2, t.1))

/-- The viewport state (src/viewport.rs): sizes, the pixel buffer, and the
injected renderer modelled as the last size forwarded to its resize hook
(exactly what the repo MockRenderer records). -/
structure Viewport where
  width : ℕ
  height : ℕ
  depth : ℕ
  buffer : List Pixel
  rendererSize : ℕ × ℕ
  deriving DecidableEq, Repr

/-- src/viewport.rs sizes: the three sizes as usize. -/
def Viewport.sizes (vp : Viewport) : VoxelN := (vp.width, vp.height, vp.depth)

/-- src/viewport.rs push_pixel: writes the pixel at index row*width+col when
that index is inside the buffer and the layer passes the depth test. -/
def push_pixel (vp : Viewport) (v : VoxelN) (color : Color) : Viewport :=
  let i := buffer_index v.1 v.2.1 vp.width
  if i < vp.buffer.length ∧ (vp.buffer.getD i Pixel.default).depth ≤ v.2.2 then
    { vp with buffer := vp.buffer.set i { color := color, depth := v.2.2 } }
  else vp

/-- src/viewport.rs push_line: push_pixel on every point of the Bresenham3d
walk, each isize coordinate cast to usize. -/
def push_line (vp : Viewport) (start stop : VoxelZ) (color : Color) : Viewport :=
  (bresenham3d start stop).foldl
    (fun s p => push_pixel s (usizeOfIsize p.1, usizeOfIsize p.2.1, usizeOfIsize p.2.2) color)
    vp

/-- src/viewport.rs draw_point. -/
def draw_point (vp : Viewport) (position : Position) (color : Color) : Viewport :=
  push_pixel vp (to_pixel position vp.sizes) color

/-- src/viewport.rs draw_line. -/
def draw_line (vp : Viewport) (start stop : Position) (color : Color) : Viewport :=
  push_line vp (as_signed (to_pixel start vp.sizes)) (as_signed (to_pixel stop vp.sizes)) color

/-- src/viewport.rs draw_triangle: the three outline lines a-b, b-c, c-a. -/
def draw_triangle (vp : Viewport) (point_a point_b point_c : Position) (color : Color) :
    Viewport :=
  draw_line (draw_line (draw_line vp point_a point_b color) point_b point_c color)
    point_c point_a color

/-- Modelled from the spec: the list of row values from a to b inclusive,
walked in order (spec 4.6, scan rows between the peak and the flat edge). -/
def rowRange (a b : ℤ) : List ℤ :=
  if a ≤ b then (List.range ((b - a).toNat + 1)).map (fun n => a + n)
  else (List.range ((a - b).toNat + 1)).map (fun n => a - n)

/-- Modelled from the spec: the boundary point a digital line supplies at a
given row (spec 4.6); taken as the last visited point of that row, with a
fallback never reached on the lines the fill walks. -/
def boundaryAt (l : List VoxelZ) (d : VoxelZ) (r : ℤ) : VoxelZ :=
  (l.filter (fun p => p.2.1 = r)).getLastD d

/-- src/viewport.rs fill_flat_triangle, with the external bresenham_zip
3D:Y iterator modelled from the spec: the builder fails (the expect in the
source panics, modelled as none) unless the two side points share the same
Y value; otherwise each scan row from the peak to the flat edge yields the
pair of boundary points of the two digital lines peak-to-side, and the
horizontal span between them is pushed with push_line (spec 4.6). -/
def fill_flat_triangle (vp : Viewport) (peak side_a side_b : VoxelZ) (color : Color) :
    Option Viewport :=
  if side_a.2.1 = side_b.2.1 then
    let la := bresenham3d peak side_a
    let lb := bresenham3d peak side_b
    some ((rowRange peak.2.1 side_a.2.1).foldl
      (fun s r => push_line s (boundaryAt la peak r) (boundaryAt lb peak r) color) vp)
  else none

/-- src/viewport.rs fill_triangle: sort the three mapped voxels by row,
dispatch on the flat cases, otherwise split at the interpolated
intersection and fill the two flat triangles. -/
def fill_triangle (vp : Viewport) (point_a point_b point_c : Position) (color : Color) :
    Option Viewport :=
  let pa := as_signed (to_pixel point_a vp.sizes)
  let pb := as_signed (to_pixel point_b vp.sizes)
  let pc := as_signed (to_pixel point_c vp.sizes)
  let s := sort_vectors pa pb pc
  let a := s.1
  let b := s.2.1
  let c := s.2.2
  if b.2.1 = c.2.1 then fill_flat_triangle vp a b c color
  else if b.2.1 = a.2.1 then fill_flat_triangle vp c a b color
  else
    let i := calculate_intersection c b a
    (fill_flat_triangle vp a b i color).bind (fun s2 => fill_flat_triangle s2 c b i color)

/-- src/viewport.rs reset_buffer: reallocates the buffer to width*height
default pixels. -/
def reset_buffer (vp : Viewport) : Viewport :=
  { vp with buffer := List.replicate (vp.width * vp.height) Pixel.default }

/-- src/viewport.rs resize: stores the new width and height, resets the
buffer, and forwards the new size to the renderer resize hook. -/
def resize (vp : Viewport) (width height : ℕ) : Viewport :=
  let vp1 := { vp with width := width, height := height }
  let vp2 := reset_buffer vp1
  { vp2 with rendererSize := (width, height) }

/-- src/viewport.rs Viewport::new: asserts all three sizes strictly positive
(assert failure modelled as none) and allocates the default buffer; the
renderer starts with the MockRenderer default size (0,0). -/
def Viewport.new (width height depth : ℕ) : Option Viewport :=
  if 0 < width ∧ 0 < height ∧ 0 < depth then
    some { width := width, height := height, depth := depth,
           buffer := List.replicate (width * height) Pixel.default,
           rendererSize := (0, 0) }
  else none

/-- A fresh viewport of the given sizes with a default buffer and the
MockRenderer default size, as built by ViewportFactory::test. -/
def testViewport (w h d : ℕ) : Viewport :=
  { width := w, height := h, depth := d,
    buffer := List.replicate (w * h) Pixel.default, rendererSize := (0, 0) }

/-- The white test color used by the repo's unit tests. -/
def white : Color := (255, 255, 255, 255)

/-- The split-point column the spec prescribes for the general triangle,
stated in the spec's own words: t = (mid.row - top.row)/(bot.row - top.row)
and x_split = top.col + t*(bot.col - top.col). -/
def spec_split_col (top mid bot : VoxelZ) : ℚ :=
  let t : ℚ := ((mid.2.1 - top.2.1 : ℤ) : ℚ) / ((bot.2.1 - top.2.1 : ℤ) : ℚ)
  (top.1 : ℚ) + t * ((bot.1 - top.1 : ℤ) : ℚ)

/-- The split-point layer the spec prescribes for the general triangle:
z_split = top.layer + t*(bot.layer - top.layer). -/
def spec_split_layer (top mid bot : VoxelZ) : ℚ :=
  let t : ℚ := ((mid.2.1 - top.2.1 : ℤ) : ℚ) / ((bot.2.1 - top.2.1 : ℤ) : ℚ)
  (top.2.2 : ℚ) + t * ((bot.2.2 - top.2.2 : ℤ) : ℚ)

/-! ### The repo's own unit tests, replayed on the embedding -/

example : to_pixel (-1, -1, -1) (640, 480, 100) = (0, 0, 0) := by
  simp only [to_pixel, usizeOfRat]; norm_num
example : to_pixel (0, 0, 0) (640, 480, 100) = (320, 240, 50) := by
  simp only [to_pixel, usizeOfRat]; norm_num; all_goals decide
example : to_pixel (1, 1, 1) (640, 480, 100) = (640, 480, 100) := by
  simp only [to_pixel, usizeOfRat]; norm_num; all_goals decide
example : to_pixel (-1/4, 1/5, 3/5) (640, 480, 100) = (240, 288, 80) := by
  simp only [to_pixel, usizeOfRat]; norm_num; all_goals decide
example : to_pixel (2 ^ 70, 0, 0) (2, 2, 2) = (2 ^ 64 - 1, 1, 1) := by
  simp only [to_pixel, usizeOfRat]; norm_num; all_goals decide
example : buffer_index 320 240 640 = 153920 := by decide
example : buffer_index 124 213 640 = 136444 := by decide
example : sort_vectors (10, 10, 10) (5, 5, 5) (0, 0, 0) =
    ((10, 10, 10), (5, 5, 5), (0, 0, 0)) := by decide
example : sort_vectors (10, 5, 0) (5, 10, 0) (0, 0, 0) =
    ((5, 10, 0), (10, 5, 0), (0, 0, 0)) := by decide
example : sort_vectors (5, 0, 10) (10, 5, 0) (0, 10, 5) =
    ((0, 10, 5), (10, 5, 0), (5, 0, 10)) := by decide
example : calculate_intersection (4, 0, 2) (0, 2, 1) (0, 4, 4) = (2, 2, 3) := by
  simp only [calculate_intersection, isizeOfRat]; norm_num
example : calculate_intersection (4, 0, 2) (0, 2, 1) (8, 4, -2) = (6, 2, 0) := by
  simp only [calculate_intersection, isizeOfRat]; norm_num

/-! ### C1: push_pixel writes exactly under the bounds and depth conditions -/

/-- C1: for every voxel (col,row,layer) and 4-byte color, push_pixel writes
Pixel(color, depth=layer) at index row*width+col if and only if that index is
strictly below the buffer length and layer is at least the depth stored there
(equal depth overwrites); otherwise the call returns normally and leaves the
whole viewport, in particular the buffer, unchanged. -/
theorem C1_push_pixel_writes_iff (vp : Viewport) (col row layer : ℕ) (c : Color) (i : ℕ)
    (hi : i = row * vp.width + col) :
    ((i < vp.buffer.length ∧ (vp.buffer.getD i Pixel.default).depth ≤ layer) →
      push_pixel vp (col, row, layer) c =
        { vp with buffer := vp.buffer.set i { color := c, depth := layer } }) ∧
    (¬(i < vp.buffer.length ∧ (vp.buffer.getD i Pixel.default).depth ≤ layer) →
      push_pixel vp (col, row, layer) c = vp) := by
  subst hi
  constructor <;> intro h <;> simp only [push_pixel, buffer_index]
  · rw [if_pos h]
  · rw [if_neg h]

/-- Witness for C1 at a concrete input: on a fresh 2x1 buffer, the voxel
(0,0,3) is written at index 0; the voxel (5,0,3) is out of bounds and the
viewport is unchanged. -/
theorem C1_push_pixel_writes_iff_witness :
    push_pixel (testViewport 2 1 4) (0, 0, 3) white =
      { testViewport 2 1 4 with
        buffer := (testViewport 2 1 4).buffer.set 0 { color := white, depth := 3 } } ∧
    push_pixel (testViewport 2 1 4) (5, 0, 3) white = testViewport 2 1 4 :=
  ⟨(C1_push_pixel_writes_iff (testViewport 2 1 4) 0 0 3 white 0 rfl).1 (by decide),
   (C1_push_pixel_writes_iff (testViewport 2 1 4) 5 0 3 white 5 rfl).2 (by decide)⟩

/-! ### C8: draw_triangle is exactly the three draw_line calls -/

/-- C8: for every three positions and color, draw_triangle leaves exactly the
state of the three sequential draw_line calls a-b, b-c, c-a started from the
same state. -/
theorem C8_draw_triangle_eq_three_lines (vp : Viewport) (a b c : Position) (color : Color) :
    draw_triangle vp a b c color =
      draw_line (draw_line (draw_line vp a b color) b c color) c a color := rfl

/-! ### C9: resize resets the buffer, sizes and renderer -/

/-- C9: for every new width and height and any prior content, resize yields a
buffer of length exactly w2*h2 with every cell the default pixel, stores the
new width and height, leaves depth unchanged, and forwards (w2,h2) to the
renderer resize hook. -/
theorem C9_resize_resets (vp : Viewport) (w2 h2 : ℕ) :
    (resize vp w2 h2).buffer.length = w2 * h2 ∧
    (∀ p ∈ (resize vp w2 h2).buffer, p = Pixel.default) ∧
    (resize vp w2 h2).width = w2 ∧
    (resize vp w2 h2).height = h2 ∧
    (resize vp w2 h2).depth = vp.depth ∧
    (resize vp w2 h2).rendererSize = (w2, h2) := by
  refine ⟨by simp [resize, reset_buffer], ?_, rfl, rfl, rfl, rfl⟩
  intro p hp
  simp only [resize, reset_buffer, List.mem_replicate] at hp
  exact hp.2

/-! ### C10: resize performs no positivity check, unlike new -/

/-- C10: resize accepts every width and height, including zero (yielding a
zero-length buffer), with no assertion, while Viewport::new rejects a zero
size; so the strict positivity that new asserts is not preserved by resize. -/
theorem C10_resize_unchecked (vp : Viewport) (w2 h2 : ℕ) :
    (resize vp w2 h2).buffer.length = w2 * h2 ∧
    (resize vp 0 0).width = 0 ∧
    (resize vp 0 0).height = 0 ∧
    (resize vp 0 0).buffer = [] ∧
    (∀ h d, Viewport.new 0 h d = none) := by
  refine ⟨by simp [resize, reset_buffer], rfl, rfl, by simp [resize, reset_buffer], ?_⟩
  intro h d
  simp [Viewport.new]

/-! ### C2: out-of-range coordinates are not always dropped -/

/-- Reading a set cell back out of the buffer. -/
theorem getD_set_self (l : List Pixel) (i : ℕ) (p : Pixel) (h : i < l.length) :
    (l.set i p).getD i Pixel.default = p := by
  simp [List.getD_eq_getElem?_getD, List.getElem?_set_self h]

/-- C2: failing input for the claim that every position with a coordinate
at or above 1.0 (or below -1.0) maps outside [0, width*height) and is a
no-op.  On a fresh 4x4x10 viewport the position (1.0, 0.0, 0.0) maps to
voxel (4, 2, 5), whose index 2*4+4 = 12 is inside [0, 16), so draw_point
writes the buffer (wrapping into the next row); likewise (-2.0, 0.0, 0.0)
saturates to column 0 and is drawn.  The code contradicts its own module
documentation, which promises that points outside the range are not drawn. -/
theorem C2_out_of_range_position_is_drawn :
    to_pixel (1, 0, 0) (4, 4, 10) = (4, 2, 5) ∧
    buffer_index 4 2 4 < 4 * 4 ∧
    (draw_point (testViewport 4 4 10) (1, 0, 0) white).buffer ≠
      (testViewport 4 4 10).buffer ∧
    to_pixel (-2, 0, 0) (4, 4, 10) = (0, 2, 5) ∧
    (draw_point (testViewport 4 4 10) (-2, 0, 0) white).buffer ≠
      (testViewport 4 4 10).buffer := by
  have hs : (testViewport 4 4 10).sizes = (4, 4, 10) := rfl
  have h1 : to_pixel (1, 0, 0) (4, 4, 10) = (4, 2, 5) := by
    simp only [to_pixel, usizeOfRat]; norm_num; all_goals decide
  have h2 : to_pixel (-2, 0, 0) (4, 4, 10) = (0, 2, 5) := by
    simp only [to_pixel, usizeOfRat]; norm_num; all_goals decide
  refine ⟨h1, by decide, ?_, h2, ?_⟩
  · simp only [draw_point, hs, h1]
    decide
  · simp only [draw_point, hs, h2]
    decide

/-! ### C3: the floor formula for to_pixel -/

/-- C3 counterexample: the claim quantifies over every position, but at the
position (-3, 0, 0) over sizes (2, 2, 2) the code's saturating cast returns
column 0 while the claimed floor formula gives floor((-3+1)*0.5*2) = -2. -/
theorem C3_to_pixel_floor_counterexample :
    ((to_pixel (-3, 0, 0) (2, 2, 2)).1 : ℤ) ≠ ⌊((-3 : ℚ) + 1) * (1/2) * ((2 : ℕ) : ℚ)⌋ := by
  have h1 : (to_pixel (-3, 0, 0) (2, 2, 2)).1 = 0 := by
    simp only [to_pixel, usizeOfRat]; norm_num
  have h2 : ⌊((-3 : ℚ) + 1) * (1/2) * ((2 : ℕ) : ℚ)⌋ = -2 := by norm_num
  rw [h1, h2]
  decide

/-- C3 (amended): for every position whose coordinates are all at least
-1.0 (so the scaled values are nonnegative and truncation agrees with
floor) and whose scaled values (coord+1)*0.5*size stay below usize::MAX
(so the cast's upper saturation cannot trigger), to_pixel
deterministically returns the floors of the three linear maps; below -1.0
the saturating cast returns 0 instead of the negative floor, and above
usize::MAX it returns usize::MAX instead of the floor.  The spec's
concrete example holds: (-0.25, 0.2, 0.6) over 640x480x100 maps to
(240, 288, 80). -/
theorem C3_to_pixel_floor_inrange (x y z : ℚ) (w h d : ℕ)
    (hx : -1 ≤ x) (hy : -1 ≤ y) (hz : -1 ≤ z)
    (hxu : (x + 1) * (1/2) * (w : ℚ) < 2 ^ 64)
    (hyu : (y + 1) * (1/2) * (h : ℚ) < 2 ^ 64)
    (hzu : (z + 1) * (1/2) * (d : ℚ) < 2 ^ 64) :
    ((to_pixel (x, y, z) (w, h, d)).1 : ℤ) = ⌊(x + 1) * (1/2) * (w : ℚ)⌋ ∧
    ((to_pixel (x, y, z) (w, h, d)).2.1 : ℤ) = ⌊(y + 1) * (1/2) * (h : ℚ)⌋ ∧
    ((to_pixel (x, y, z) (w, h, d)).2.2 : ℤ) = ⌊(z + 1) * (1/2) * (d : ℚ)⌋ ∧
    to_pixel (-1/4, 1/5, 3/5) (640, 480, 100) = (240, 288, 80) := by
  have key : ∀ (q : ℚ) (n : ℕ), -1 ≤ q → (q + 1) * (1/2) * (n : ℚ) < 2 ^ 64 →
      ((usizeOfRat ((q + 1) * (1/2) * (n : ℚ)) : ℕ) : ℤ) = ⌊(q + 1) * (1/2) * (n : ℚ)⌋ := by
    intro q n hq hqu
    have h0 : (0 : ℚ) ≤ (q + 1) * (1/2) * (n : ℚ) := by
      have hq1 : (0 : ℚ) ≤ q + 1 := by linarith
      positivity
    have hfl0 : 0 ≤ ⌊(q + 1) * (1/2) * (n : ℚ)⌋ := Int.floor_nonneg.mpr h0
    have hflu : ⌊(q + 1) * (1/2) * (n : ℚ)⌋ < 2 ^ 64 := by
      rw [Int.floor_lt]
      exact_mod_cast hqu
    have hmin : min ((⌊(q + 1) * (1/2) * (n : ℚ)⌋).toNat) (2 ^ 64 - 1) =
        (⌊(q + 1) * (1/2) * (n : ℚ)⌋).toNat := min_eq_left (by omega)
    simp only [usizeOfRat, hmin]
    exact Int.toNat_of_nonneg hfl0
  refine ⟨key x w hx hxu, key y h hy hyu, key z d hz hzu, ?_⟩
  simp only [to_pixel, usizeOfRat]; norm_num; all_goals decide

/-- Witness for C3 (amended) at the spec's own example input, whose scaled
values 240, 288 and 80 are far below usize::MAX. -/
theorem C3_to_pixel_floor_inrange_witness :
    ((to_pixel (-1/4, 1/5, 3/5) (640, 480, 100)).1 : ℤ) =
      ⌊((-1/4 : ℚ) + 1) * (1/2) * ((640 : ℕ) : ℚ)⌋ ∧
    ((to_pixel (-1/4, 1/5, 3/5) (640, 480, 100)).2.1 : ℤ) =
      ⌊((1/5 : ℚ) + 1) * (1/2) * ((480 : ℕ) : ℚ)⌋ ∧
    ((to_pixel (-1/4, 1/5, 3/5) (640, 480, 100)).2.2 : ℤ) =
      ⌊((3/5 : ℚ) + 1) * (1/2) * ((100 : ℕ) : ℚ)⌋ ∧
    to_pixel (-1/4, 1/5, 3/5) (640, 480, 100) = (240, 288, 80) :=
  C3_to_pixel_floor_inrange (-1/4) (1/5) (3/5) 640 480 100
    (by norm_num) (by norm_num) (by norm_num)
    (by norm_num) (by norm_num) (by norm_num)

/-! ### C4: two writes at the same pixel, lower layer first or second -/

/-- C4 counterexample: the claim promises the final buffer holds (c2, z2)
for every prior buffer content, but a pixel already stored with depth 5
occludes both writes with layers 1 < 2: the buffer keeps the old pixel. -/
theorem C4_two_writes_counterexample :
    (push_pixel (push_pixel
        { width := 1, height := 1, depth := 10,
          buffer := [{ color := (9, 9, 9, 9), depth := 5 }], rendererSize := (0, 0) }
        (0, 0, 1) (1, 1, 1, 1)) (0, 0, 2) (2, 2, 2, 2)).buffer.getD 0 Pixel.default ≠
      { color := (2, 2, 2, 2), depth := 2 } := by decide

/-- C4 (amended): for layers z1 < z2 the two push_pixel writes to the same
pixel coordinate commute: either order produces the same final viewport.
At a valid index, the final buffer holds (c2, z2) exactly when z2 passes
the depth test against the pixel already stored there (in particular always
on a fresh buffer, whose stored depth is 0); when it does not, both writes
are dropped and the viewport is unchanged. -/
theorem C4_two_writes_commute (vp : Viewport) (x y z1 z2 : ℕ) (c1 c2 : Color)
    (hz : z1 < z2) :
    push_pixel (push_pixel vp (x, y, z1) c1) (x, y, z2) c2 =
      push_pixel (push_pixel vp (x, y, z2) c2) (x, y, z1) c1 ∧
    (∀ i, i = y * vp.width + x → i < vp.buffer.length →
      ((vp.buffer.getD i Pixel.default).depth ≤ z2 →
        (push_pixel (push_pixel vp (x, y, z1) c1) (x, y, z2) c2).buffer.getD i Pixel.default =
          { color := c2, depth := z2 }) ∧
      (¬(vp.buffer.getD i Pixel.default).depth ≤ z2 →
        push_pixel (push_pixel vp (x, y, z1) c1) (x, y, z2) c2 = vp)) := by
  have hz21 : ¬ z2 ≤ z1 := by omega
  by_cases hlt : y * vp.width + x < vp.buffer.length
  · by_cases h2 : (vp.buffer.getD (y * vp.width + x) Pixel.default).depth ≤ z2
    · -- the z2 write passes the depth test against the prior content
      have e2 : push_pixel vp (x, y, z2) c2 =
          { vp with buffer := vp.buffer.set (y * vp.width + x) { color := c2, depth := z2 } } := by
        simp only [push_pixel, buffer_index]
        rw [if_pos ⟨hlt, h2⟩]
      have eB : push_pixel (push_pixel vp (x, y, z2) c2) (x, y, z1) c1 =
          { vp with buffer := vp.buffer.set (y * vp.width + x) { color := c2, depth := z2 } } := by
        rw [e2]
        simp only [push_pixel, buffer_index]
        rw [if_neg]
        intro hc
        have := hc.2
        rw [getD_set_self _ _ _ (by simpa using hlt)] at this
        exact hz21 this
      have eA : push_pixel (push_pixel vp (x, y, z1) c1) (x, y, z2) c2 =
          { vp with buffer := vp.buffer.set (y * vp.width + x) { color := c2, depth := z2 } } := by
        by_cases h1 : (vp.buffer.getD (y * vp.width + x) Pixel.default).depth ≤ z1
        · have e1 : push_pixel vp (x, y, z1) c1 =
              { vp with buffer := vp.buffer.set (y * vp.width + x) { color := c1, depth := z1 } } := by
            simp only [push_pixel, buffer_index]
            rw [if_pos ⟨hlt, h1⟩]
          rw [e1]
          simp only [push_pixel, buffer_index]
          rw [if_pos ⟨by simpa using hlt, by rw [getD_set_self _ _ _ (by simpa using hlt)]; exact le_of_lt hz⟩]
          simp [List.set_set]
        · have e1 : push_pixel vp (x, y, z1) c1 = vp := by
            simp only [push_pixel, buffer_index]
            rw [if_neg]
            exact fun hc => h1 hc.2
          rw [e1, e2]
      refine ⟨by rw [eA, eB], ?_⟩
      intro i hi _
      subst hi
      refine ⟨fun _ => ?_, fun hcon => absurd h2 hcon⟩
      rw [eA]
      exact getD_set_self _ _ _ hlt
    · -- the prior content occludes both writes
      have h1 : ¬ (vp.buffer.getD (y * vp.width + x) Pixel.default).depth ≤ z1 := by
        intro hc
        exact h2 (hc.trans (le_of_lt hz))
      have e1 : push_pixel vp (x, y, z1) c1 = vp := by
        simp only [push_pixel, buffer_index]
        rw [if_neg]
        exact fun hc => h1 hc.2
      have e2 : push_pixel vp (x, y, z2) c2 = vp := by
        simp only [push_pixel, buffer_index]
        rw [if_neg]
        exact fun hc => h2 hc.2
      refine ⟨by rw [e1, e2, e1], ?_⟩
      intro i hi _
      subst hi
      exact ⟨fun hcon => absurd hcon h2, fun _ => by rw [e1, e2]⟩
  · -- the index is outside the buffer: every write is dropped
    have drop : ∀ (z : ℕ) (c : Color), push_pixel vp (x, y, z) c = vp := by
      intro z c
      simp only [push_pixel, buffer_index]
      rw [if_neg]
      exact fun hc => hlt hc.1
    refine ⟨by rw [drop, drop, drop], ?_⟩
    intro i hi hl
    subst hi
    exact absurd hl hlt

/-- Witness for C4 (amended) on a fresh 1x1 viewport with layers 1 < 2. -/
theorem C4_two_writes_commute_witness :
    push_pixel (push_pixel (testViewport 1 1 10) (0, 0, 1) (1, 1, 1, 1)) (0, 0, 2) (2, 2, 2, 2) =
      push_pixel (push_pixel (testViewport 1 1 10) (0, 0, 2) (2, 2, 2, 2)) (0, 0, 1) (1, 1, 1, 1) ∧
    (push_pixel (push_pixel (testViewport 1 1 10) (0, 0, 1) (1, 1, 1, 1))
        (0, 0, 2) (2, 2, 2, 2)).buffer.getD 0 Pixel.default =
      { color := (2, 2, 2, 2), depth := 2 } :=
  ⟨(C4_two_writes_commute (testViewport 1 1 10) 0 0 1 2 (1, 1, 1, 1) (2, 2, 2, 2) (by decide)).1,
   ((C4_two_writes_commute (testViewport 1 1 10) 0 0 1 2 (1, 1, 1, 1) (2, 2, 2, 2)
      (by decide)).2 0 rfl (by decide)).1 (by decide)⟩

/-! ### C6: the general-triangle split of fill_triangle -/

/-- C6: whenever the three mapped voxels, sorted by row into top, mid and
bot, have pairwise distinct rows, fill_triangle computes the split point on
the edge top-bot at row mid.row by exactly the linear interpolation the
spec states (t = (mid.row - top.row)/(bot.row - top.row), x_split = top.col
+ t*(bot.col - top.col), z_split = top.layer + t*(bot.layer - top.layer),
truncated to isize), and fills exactly the two flat triangles (bot, mid,
split) and (top, mid, split). -/
theorem C6_fill_triangle_general_split (vp : Viewport) (a b c : Position) (color : Color)
    (bot mid top : VoxelZ)
    (hsort : sort_vectors (as_signed (to_pixel a vp.sizes)) (as_signed (to_pixel b vp.sizes))
        (as_signed (to_pixel c vp.sizes)) = (bot, mid, top))
    (h1 : mid.2.1 ≠ top.2.1) (h2 : mid.2.1 ≠ bot.2.1) :
    calculate_intersection top mid bot =
      (isizeOfRat (spec_split_col top mid bot), mid.2.1,
        isizeOfRat (spec_split_layer top mid bot)) ∧
    fill_triangle vp a b c color =
      (fill_flat_triangle vp bot mid (calculate_intersection top mid bot) color).bind
        (fun s2 => fill_flat_triangle s2 top mid (calculate_intersection top mid bot) color) := by
  constructor
  · have hcol : (top.1 : ℚ) +
        (((mid.2.1 : ℚ) - (top.2.1 : ℚ)) / ((bot.2.1 : ℚ) - (top.2.1 : ℚ))) *
          ((bot.1 : ℚ) - (top.1 : ℚ)) = spec_split_col top mid bot := by
      simp only [spec_split_col]
      push_cast
      ring
    have hlay : (top.2.2 : ℚ) +
        (((mid.2.1 : ℚ) - (top.2.1 : ℚ)) / ((bot.2.1 : ℚ) - (top.2.1 : ℚ))) *
          ((bot.2.2 : ℚ) - (top.2.2 : ℚ)) = spec_split_layer top mid bot := by
      simp only [spec_split_layer]
      push_cast
      ring
    simp only [calculate_intersection]
    rw [hcol, hlay]
  · simp only [fill_triangle]
    rw [hsort]
    dsimp only
    rw [if_neg h1, if_neg h2]

/-- Witness for C6 at a concrete general triangle on a 4x4x4 viewport:
the three positions map to voxels (0,0,0), (0,2,0) and (1,1,0), whose
sorted rows 0 < 1 < 2 are pairwise distinct. -/
theorem C6_fill_triangle_general_split_witness :
    calculate_intersection (0, 0, 0) (1, 1, 0) (0, 2, 0) =
      (isizeOfRat (spec_split_col (0, 0, 0) (1, 1, 0) (0, 2, 0)), 1,
        isizeOfRat (spec_split_layer (0, 0, 0) (1, 1, 0) (0, 2, 0))) ∧
    fill_triangle (testViewport 4 4 4) (-1, -1, -1) (-1, 0, -1) (-1/2, -1/2, -1) white =
      (fill_flat_triangle (testViewport 4 4 4) (0, 2, 0) (1, 1, 0)
          (calculate_intersection (0, 0, 0) (1, 1, 0) (0, 2, 0)) white).bind
        (fun s2 => fill_flat_triangle s2 (0, 0, 0) (1, 1, 0)
          (calculate_intersection (0, 0, 0) (1, 1, 0) (0, 2, 0)) white) :=
  C6_fill_triangle_general_split (testViewport 4 4 4) (-1, -1, -1) (-1, 0, -1) (-1/2, -1/2, -1)
    white (0, 2, 0) (1, 1, 0) (0, 0, 0)
    (by
      have ha : to_pixel (-1, -1, -1) (testViewport 4 4 4).sizes = (0, 0, 0) := by
        simp only [to_pixel, usizeOfRat, testViewport, Viewport.sizes]; norm_num
      have hb : to_pixel (-1, 0, -1) (testViewport 4 4 4).sizes = (0, 2, 0) := by
        simp only [to_pixel, usizeOfRat, testViewport, Viewport.sizes]; norm_num
        all_goals decide
      have hc : to_pixel (-1/2, -1/2, -1) (testViewport 4 4 4).sizes = (1, 1, 0) := by
        simp only [to_pixel, usizeOfRat, testViewport, Viewport.sizes]; norm_num
      rw [ha, hb, hc]
      decide)
    (by decide) (by decide)

/-! ### C7: fill_triangle never reaches the flat-triangle failure branch -/

/-- C7: for every input, in particular every degenerate triangle, the
side points handed to fill_flat_triangle always share the same row, so the
zip builder never fails (the source's expect is unreachable) and
fill_triangle completes and returns a state. -/
theorem C7_fill_triangle_total (vp : Viewport) (a b c : Position) (color : Color) :
    (fill_triangle vp a b c color).isSome := by
  simp only [fill_triangle]
  set s := sort_vectors (as_signed (to_pixel a vp.sizes)) (as_signed (to_pixel b vp.sizes))
    (as_signed (to_pixel c vp.sizes)) with hs
  obtain ⟨A, B, C⟩ := s
  dsimp only
  by_cases hbc : B.2.1 = C.2.1
  · rw [if_pos hbc]
    simp [fill_flat_triangle, hbc]
  · rw [if_neg hbc]
    by_cases hba : B.2.1 = A.2.1
    · rw [if_pos hba]
      simp [fill_flat_triangle, hba.symm]
    · rw [if_neg hba]
      simp [fill_flat_triangle, calculate_intersection]
